import Mathlib

/-!
Verification development for the Task-Manager full-stack application.

The server (`server/server.js`, reproduced in the repository README) is an
Express application over two MongoDB collections (`Task`, `UserProfile`)
guarded by an Auth0 JWT middleware.  This file gives a shallow embedding of
the server's pure request/response behaviour:

* strings are Lean `String`s, but every operation on them is re-implemented
  by structural recursion on the underlying character list (`String.data`),
  mirroring the JavaScript semantics of `trim`, `replace(/[<>]/g,'')`,
  `startsWith`, and `split(' ')[1]`;
* the persistence layer is explicit state passing: the `Task` collection is a
  `TaskStore` (a list of documents plus a fresh-id counter standing for
  MongoDB's unique `_id` assignment), the `UserProfile` collection is a
  `List Profile`;
* timestamps (`new Date()`, `Date.now`) are `Nat` parameters `now`;
* JSON payload fields that may be absent are `Option` values (`none` models
  the field being `undefined`);
* `Task.findByIdAndUpdate(id, update)` is modelled with current Mongoose
  (v6+) update semantics: keys whose value is `undefined` are stripped from
  the update (the stored field is left unchanged), while an explicit `null`
  is written;
* the `xss` library call in `sanitizeInput` is the identity on its input
  because the input has already had every `<` and `>` removed, so no markup
  remains for the xss default whitelist filter to rewrite;
* JWT cryptography is opaque: the gate takes a `verify` oracle mapping a
  token to the authenticated user, and the claims proved about the gate do
  not depend on the oracle;
* `new URL(url)` success (WHATWG URL parsing) is approximated by requiring
  an absolute-URL scheme prefix `ALPHA *(ALPHANUM / "+" / "-" / ".") ":"`;
  the claims below never depend on the exact parse beyond this shape.
-/

namespace TaskManager

/-- Whitespace test used by the JavaScript `String.prototype.trim` (restricted
to the ASCII whitespace characters that occur in this development). -/
def isWSChar (c : Char) : Bool := c == ' ' || c == '\t' || c == '\n' || c == '\r'

/-- Model of JavaScript `s.trim()`: drop whitespace from both ends. -/
def jsTrim (s : String) : String :=
  String.mk (((s.data.dropWhile isWSChar).reverse.dropWhile isWSChar).reverse)

/-- Model of JavaScript `s.startsWith(pre)` on character lists (first argument
is the candidate prefix). -/
def startsWithChars : List Char → List Char → Bool
  | [], _ => true
  | _ :: _, [] => false
  | p :: ps, c :: cs => p == c && startsWithChars ps cs

/-- Characters of the first field of `l` split at a space (helper for
`split(' ')`). -/
def takeUntilSpace : List Char → List Char
  | [] => []
  | c :: cs => if c == ' ' then [] else c :: takeUntilSpace cs

/-- Drop through the first space of `l` (helper for `split(' ')`). -/
def dropThroughSpace : List Char → List Char
  | [] => []
  | c :: cs => if c == ' ' then cs else dropThroughSpace cs

/-- Model of JavaScript `s.split(' ')[1]`, the token part of a
`Bearer <token>` header (the empty string stands for `undefined` when there
is no second field; the claims never inspect that case). -/
def secondField (s : String) : String :=
  String.mk (takeUntilSpace (dropThroughSpace s.data))

/-- Model of `sanitizeInput` from server.js on an actual string:
`xss(input.replace(/[<>]/g, '').trim())`.  The `replace` removes every angle
bracket, `trim` strips whitespace, and `xss` is then the identity (no markup
is left).  -/
def sanitizeInput (input : String) : String :=
  jsTrim (String.mk (input.data.filter (fun c => !(c == '<' || c == '>'))))

/-- Model of `sanitizeInput` on a possibly-absent payload field: for any
non-string input (modelled by `none`) the function returns the empty
string. -/
def sanitizeOpt : Option String → String
  | none => ""
  | some s => sanitizeInput s

/-- Model of `validateTitle` from server.js: the trimmed title has length in
[1,100].  (The `typeof title !== 'string'` branch cannot fire: every call
site passes the string produced by `sanitizeInput`.) -/
def validateTitle (title : String) : Bool :=
  decide (0 < (jsTrim title).length) && decide ((jsTrim title).length ≤ 100)

/-- Model of `validateDisplayName` from server.js: trimmed length in [1,50].
It is applied to the raw payload value; a non-string present value (not
representable here) would also be rejected. -/
def validateDisplayName (name : String) : Bool :=
  decide (0 < (jsTrim name).length) && decide ((jsTrim name).length ≤ 50)

/-- Model of `validateBio` from server.js: length at most 500 (no trim). -/
def validateBio (bio : String) : Bool :=
  decide (bio.length ≤ 500)

/-- Scheme-tail test for `looksLikeURL`: the characters before the mandatory
colon are ALPHANUM / "+" / "-" / ".". -/
def schemeTailOk : List Char → Bool
  | [] => false
  | c :: cs =>
      if c == ':' then true
      else (c.isAlphanum || c == '+' || c == '-' || c == '.') && schemeTailOk cs

/-- Approximation of WHATWG `new URL(url)` success: the string begins with a
scheme `ALPHA *(ALPHANUM / "+" / "-" / ".") ":"`.  Host-shape requirements of
special schemes are not modelled; no claim depends on them. -/
def looksLikeURL (s : String) : Bool :=
  match s.data with
  | [] => false
  | c :: cs => c.isAlpha && schemeTailOk cs

/-- Model of `validateAvatarUrl` from server.js: an absent or empty value is
valid (`!url` is truthy on the empty string), otherwise the string must have
length at most 500 and parse as a URL. -/
def validateAvatarUrl (url : String) : Bool :=
  if url == "" then true
  else if decide (url.length > 500) then false
  else looksLikeURL url

/-- Document of the `Task` Mongoose model: `title`, `completed`,
`completedAt` (nullable date), `userId` (Auth0 subject), plus the MongoDB
`_id` rendered as a `Nat`. -/
structure Task where
  id : Nat
  title : String
  completed : Bool
  completedAt : Option Nat
  userId : String
deriving DecidableEq, Repr

/-- The `Task` collection: the stored documents plus the next fresh `_id`
(MongoDB assigns a unique id to every inserted document). -/
structure TaskStore where
  tasks : List Task
  nextId : Nat
deriving DecidableEq, Repr

/-- The `preferences` sub-document of `UserProfile` with its schema defaults
`theme: 'dark'` and `emailNotifications: true`. -/
structure Prefs where
  theme : String
  emailNotifications : Bool
deriving DecidableEq, Repr

/-- Document of the `UserProfile` Mongoose model.  `displayName`, `avatar`
and `bio` have no schema default, so a document may lack them (`none`). -/
structure Profile where
  userId : String
  displayName : Option String
  avatar : Option String
  bio : Option String
  preferences : Prefs
  createdAt : Nat
  updatedAt : Nat
deriving DecidableEq, Repr

/-- The authenticated principal attached by the JWT middleware:
`decoded.sub` plus the optional `name` and `email` claims used for the
default display name. -/
structure AuthUser where
  sub : String
  name : Option String
  email : Option String
deriving DecidableEq, Repr

/-- HTTP responses of the server, collapsed to their JSON shape.  `okNull`
models `res.json(null)` (reachable only through a race that the sequential
model excludes). -/
inductive Resp where
  | okHealth
  | okTask (task : Task)
  | okNull
  | okTasks (tasks : List Task)
  | okProfile (profile : Profile)
  | okDeleted
  | badRequest
  | notFound
  | unauthorized
deriving DecidableEq, Repr

/-- Alphabet of standard base64 (Node `Buffer.toString('base64')`). -/
def base64Table : List Char :=
  "ABCDEFGHIJKLMNOPQRSTUVWXYZabcdefghijklmnopqrstuvwxyz0123456789+/".data

/-- Character of the base64 alphabet at index `n`. -/
def b64Char (n : Nat) : Char := base64Table.getD n 'A'

/-- Standard base64 encoding of a byte list, with `=` padding, as produced by
Node's `Buffer.prototype.toString('base64')`. -/
def base64Encode : List Nat → List Char
  | [] => []
  | [a] => [b64Char (a / 4), b64Char (a % 4 * 16), '=', '=']
  | [a, b] => [b64Char (a / 4), b64Char (a % 4 * 16 + b / 16), b64Char (b % 16 * 4), '=']
  | a :: b :: c :: rest =>
      b64Char (a / 4) :: b64Char (a % 4 * 16 + b / 16) :: b64Char (b % 16 * 4 + c / 64) ::
        b64Char (c % 64) :: base64Encode rest

/-- UTF-8 encoding of one code point (Node `Buffer.from(string)` uses UTF-8). -/
def utf8BytesOfChar (n : Nat) : List Nat :=
  if n < 128 then [n]
  else if n < 2048 then [192 + n / 64, 128 + n % 64]
  else if n < 65536 then [224 + n / 4096, 128 + n / 64 % 64, 128 + n % 64]
  else [240 + n / 262144, 128 + n / 4096 % 64, 128 + n / 64 % 64, 128 + n % 64]

/-- UTF-8 bytes of a string. -/
def utf8Bytes (s : String) : List Nat :=
  (s.data.map (fun c => utf8BytesOfChar c.toNat)).flatten

/-- Model of `generateShapesAvatar` from server.js: the seed is the base64 of
the user id, restricted to alphanumerics and cut to 10 characters, spliced
into the DiceBear URL with the two fixed theme colors. -/
def generateShapesAvatar (userId : String) : String :=
  "https://api.dicebear.com/7.x/shapes/svg?seed=" ++
    String.mk (((base64Encode (utf8Bytes userId)).filter Char.isAlphanum).take 10) ++
    "&backgroundColor=0f0f23&primaryColor=6366f1"

/-- JavaScript `a || b` on an optional string against a string fallback:
`undefined` and the empty string are falsy. -/
def firstTruthy (a : Option String) (b : String) : String :=
  match a with
  | some s => if s == "" then b else s
  | none => b

/-- Default display name chosen by `GET /profile`:
`req.user.name || req.user.email || 'User'`. -/
def identityDisplayName (u : AuthUser) : String :=
  firstTruthy u.name (firstTruthy u.email "User")

/-- The profile document `GET /profile` creates for a user without one:
identity-derived display name, generated avatar, schema defaults for the
rest. -/
def defaultProfileFor (u : AuthUser) (now : Nat) : Profile :=
  { userId := u.sub
    displayName := some (identityDisplayName u)
    avatar := some (generateShapesAvatar u.sub)
    bio := none
    preferences := { theme := "dark", emailNotifications := true }
    createdAt := now
    updatedAt := now }

/-- Handler of `GET /profile`: return the caller's stored profile, creating
it with defaults when absent.  Returns the response body and the new
collection. -/
def getProfile (ps : List Profile) (u : AuthUser) (now : Nat) : Profile × List Profile :=
  match ps.find? (fun p => p.userId == u.sub) with
  | some p => (p, ps)
  | none => (defaultProfileFor u now, ps ++ [defaultProfileFor u now])

/-- A payload field is present and fails its validator (the
`x !== undefined && !validateX(x)` pattern of `PUT /profile`). -/
def presentInvalid (v : Option String) (valid : String → Bool) : Bool :=
  match v with
  | some s => !(valid s)
  | none => false

/-- The update object built by `PUT /profile` merged into a profile document:
`updatedAt` is always set, each present text field is stored sanitized, a
present preferences object replaces the stored one. -/
def applyProfilePatch (p : Profile) (displayName avatar bio : Option String)
    (preferences : Option Prefs) (now : Nat) : Profile :=
  { p with
    updatedAt := now
    displayName := match displayName with | some s => some (sanitizeInput s) | none => p.displayName
    avatar := match avatar with | some s => some (sanitizeInput s) | none => p.avatar
    bio := match bio with | some s => some (sanitizeInput s) | none => p.bio
    preferences := match preferences with | some q => q | none => p.preferences }

/-- `findOneAndUpdate({userId}, _, {upsert: true})` on the collection:
replace the first document of the owner, or append the new document. -/
def upsertProfileList : List Profile → String → Profile → List Profile
  | [], _, p => [p]
  | q :: qs, u, p => if q.userId == u then p :: qs else q :: upsertProfileList qs u p

/-- Handler of `PUT /profile`: validate every present field (raw payload
values, in source order displayName, bio, avatar), reject with 400 on the
first failure without touching the store, otherwise upsert the patched
profile and return it. -/
def putProfile (ps : List Profile) (userId : String) (displayName avatar bio : Option String)
    (preferences : Option Prefs) (now : Nat) : Resp × List Profile :=
  if presentInvalid displayName validateDisplayName then (.badRequest, ps)
  else if presentInvalid bio validateBio then (.badRequest, ps)
  else if presentInvalid avatar validateAvatarUrl then (.badRequest, ps)
  else
    let base : Profile :=
      match ps.find? (fun p => p.userId == userId) with
      | some p => p
      | none =>
          { userId := userId, displayName := none, avatar := none, bio := none
            preferences := { theme := "dark", emailNotifications := true }
            createdAt := now, updatedAt := now }
    let updated := applyProfilePatch base displayName avatar bio preferences now
    (.okProfile updated, upsertProfileList ps userId updated)

/-- The document `new Task({title, completed: false, completedAt: null,
userId})` inserted by `POST /tasks`, with the fresh id MongoDB assigns. -/
def newTaskFor (store : TaskStore) (userId : String) (cleanTitle : String) : Task :=
  { id := store.nextId, title := cleanTitle, completed := false
    completedAt := none, userId := userId }

/-- Handler of `POST /tasks`: sanitize the payload title, reject with 400
when the sanitized title fails validation, otherwise insert a fresh task
with `completed: false`, `completedAt: null`, owned by the caller. -/
def postTasks (store : TaskStore) (userId : String) (title : Option String) :
    Resp × TaskStore :=
  if !(validateTitle (sanitizeOpt title)) then (.badRequest, store)
  else
    (.okTask (newTaskFor store userId (sanitizeOpt title)),
     { tasks := store.tasks ++ [newTaskFor store userId (sanitizeOpt title)]
       nextId := store.nextId + 1 })

/-- `Task.findOne({ _id: id, userId })`: the ownership check shared by the
update and delete handlers. -/
def findOwned (store : TaskStore) (id : Nat) (userId : String) : Option Task :=
  store.tasks.find? (fun t => t.id == id && t.userId == userId)

/-- The update object of `PUT /tasks/:id` merged into a task document:
`title` is the sanitized title; `completed` is the raw payload flag, and an
absent flag (`undefined`) is stripped from the update so the stored flag is
unchanged; `completedAt` is `now` when the payload flag is truthy and `null`
otherwise. -/
def applyTaskUpdate (t : Task) (cleanTitle : String) (completed : Option Bool)
    (now : Nat) : Task :=
  { t with
    title := cleanTitle
    completed := completed.getD t.completed
    completedAt := match completed with | some true => some now | _ => none }

/-- `findByIdAndUpdate(id, _)` on the collection: rewrite the document(s)
with the given id through `f` (document ids are unique, so at most one
document changes). -/
def updateById (l : List Task) (i : Nat) (f : Task → Task) : List Task :=
  l.map (fun t => if t.id == i then f t else t)

/-- The task collection after the `findByIdAndUpdate` call of
`PUT /tasks/:id`. -/
def putUpdatedTasks (store : TaskStore) (id : Nat) (title : Option String)
    (completed : Option Bool) (now : Nat) : List Task :=
  updateById store.tasks id (fun t => applyTaskUpdate t (sanitizeOpt title) completed now)

/-- Handler of `PUT /tasks/:id`: validate the sanitized title (400 on
failure), confirm ownership (404 otherwise), then
`findByIdAndUpdate(id, update, {new: true})` and return the updated
document. -/
def putTask (store : TaskStore) (userId : String) (id : Nat) (title : Option String)
    (completed : Option Bool) (now : Nat) : Resp × TaskStore :=
  if !(validateTitle (sanitizeOpt title)) then (.badRequest, store)
  else
    match findOwned store id userId with
    | none => (.notFound, store)
    | some _ =>
        match (putUpdatedTasks store id title completed now).find?
            (fun t => t.id == id) with
        | some t' =>
            (.okTask t', { store with tasks := putUpdatedTasks store id title completed now })
        | none =>
            (.okNull, { store with tasks := putUpdatedTasks store id title completed now })

/-- Handler of `DELETE /tasks/:id`: confirm ownership (404 otherwise), then
`findByIdAndDelete(id)`. -/
def deleteTask (store : TaskStore) (userId : String) (id : Nat) : Resp × TaskStore :=
  match findOwned store id userId with
  | none => (.notFound, store)
  | some _ =>
      (.okDeleted, { store with tasks := store.tasks.filter (fun t => !(t.id == id)) })

/-- First component of the MongoDB sort key `{completed: 1, completedAt: 1}`:
`false` sorts before `true`. -/
def keyC (t : Task) : Nat := if t.completed then 1 else 0

/-- Second component of the MongoDB sort key: `null` sorts before every
date. -/
def keyT (t : Task) : Nat := match t.completedAt with | none => 0 | some n => n + 1

/-- The sort order of `GET /tasks`: lexicographic on `(completed,
completedAt)`. -/
def taskLE (a b : Task) : Prop :=
  keyC a < keyC b ∨ (keyC a = keyC b ∧ keyT a ≤ keyT b)

instance : DecidableRel taskLE := fun _ _ => inferInstanceAs (Decidable (_ ∨ _))

instance : IsTotal Task taskLE := ⟨by intro a b; unfold taskLE; omega⟩

instance : IsTrans Task taskLE := ⟨by intro a b c; unfold taskLE; omega⟩

/-- Handler of `GET /tasks`:
`Task.find({userId}).sort({completed: 1, completedAt: 1})`.  MongoDB leaves
the order of ties unspecified; insertion sort realizes one admissible
order. -/
def listByOwner (store : TaskStore) (userId : String) : List Task :=
  List.insertionSort taskLE (store.tasks.filter (fun t => t.userId == userId))

/-- The routes the Express application defines. -/
inductive Route where
  | health
  | profileGet
  | profilePut
  | tasksGet
  | tasksPost
  | tasksPut
  | tasksDelete
deriving DecidableEq, Repr

/-- An HTTP request: the route, the raw `Authorization` header, the `:id`
path parameter, and the JSON body fields the handlers read (absent fields
are `none`). -/
structure Request where
  route : Route
  authorization : Option String
  paramId : Nat
  title : Option String
  completed : Option Bool
  displayName : Option String
  avatar : Option String
  bio : Option String
  preferences : Option Prefs
deriving Repr

/-- Whole persisted state of the server: the two collections. -/
structure ServerState where
  store : TaskStore
  profiles : List Profile
deriving DecidableEq, Repr

/-- The `jwtCheck` middleware: reject when the header is absent or does not
start with `Bearer `, otherwise verify the extracted token through the
opaque `verify` oracle (jwks lookup plus RS256 signature, audience and
issuer checks); `none` is any verification failure. -/
def bearerUser (verify : String → Option AuthUser) (authHeader : Option String) :
    Option AuthUser :=
  match authHeader with
  | none => none
  | some h =>
      if startsWithChars "Bearer ".data h.data then verify (secondField h)
      else none

/-- The application: `GET /health` answers without authentication; every
other route runs `jwtCheck` first and reaches its handler only with a
verified user. -/
def handle (verify : String → Option AuthUser) (now : Nat) (req : Request)
    (st : ServerState) : Resp × ServerState :=
  match req.route with
  | .health => (.okHealth, st)
  | route =>
      match bearerUser verify req.authorization with
      | none => (.unauthorized, st)
      | some user =>
          match route with
          | .health => (.okHealth, st)
          | .profileGet =>
              let r := getProfile st.profiles user now
              (.okProfile r.1, { st with profiles := r.2 })
          | .profilePut =>
              let r := putProfile st.profiles user.sub req.displayName req.avatar req.bio
                req.preferences now
              (r.1, { st with profiles := r.2 })
          | .tasksGet => (.okTasks (listByOwner st.store user.sub), st)
          | .tasksPost =>
              let r := postTasks st.store user.sub req.title
              (r.1, { st with store := r.2 })
          | .tasksPut =>
              let r := putTask st.store user.sub req.paramId req.title req.completed now
              (r.1, { st with store := r.2 })
          | .tasksDelete =>
              let r := deleteTask st.store user.sub req.paramId
              (r.1, { st with store := r.2 })

/-- Well-formedness of the task collection maintained by MongoDB itself:
document ids are distinct, and the fresh-id counter is above every stored
id. -/
def TaskStore.WF (s : TaskStore) : Prop :=
  (s.tasks.map Task.id).Nodup ∧ ∀ t ∈ s.tasks, t.id < s.nextId

instance (s : TaskStore) : Decidable s.WF :=
  inferInstanceAs (Decidable (_ ∧ _))

/-- Task-collection states reachable through the public task operations. -/
inductive TaskReach : TaskStore → Prop where
  | init : TaskReach ⟨[], 0⟩
  | post (s : TaskStore) (u : String) (title : Option String) :
      TaskReach s → TaskReach (postTasks s u title).2
  | put (s : TaskStore) (u : String) (id : Nat) (title : Option String)
      (completed : Option Bool) (now : Nat) :
      TaskReach s → TaskReach (putTask s u id title completed now).2
  | del (s : TaskStore) (u : String) (id : Nat) :
      TaskReach s → TaskReach (deleteTask s u id).2

/-- Task-collection states reachable when every update request carries a
boolean `completed` flag in its payload (the flag is never `undefined`). -/
inductive TaskReachB : TaskStore → Prop where
  | init : TaskReachB ⟨[], 0⟩
  | post (s : TaskStore) (u : String) (title : Option String) :
      TaskReachB s → TaskReachB (postTasks s u title).2
  | put (s : TaskStore) (u : String) (id : Nat) (title : Option String) (b : Bool)
      (now : Nat) :
      TaskReachB s → TaskReachB (putTask s u id title (some b) now).2
  | del (s : TaskStore) (u : String) (id : Nat) :
      TaskReachB s → TaskReachB (deleteTask s u id).2

/-! Helper lemmas about the embedded operations. -/

/-- Updating the task with a given id through an id-preserving function
commutes with looking that id up. -/
theorem find?_update_map (l : List Task) (i : Nat) (f : Task → Task)
    (hf : ∀ t, (f t).id = t.id) :
    (updateById l i f).find? (fun t => t.id == i) =
      (l.find? (fun t => t.id == i)).map f := by
  induction l with
  | nil => rfl
  | cons a l ih =>
    by_cases h : (a.id == i) = true
    · have hpf : ((f a).id == i) = true := by
        rw [hf]
        exact h
      unfold updateById
      rw [List.map_cons, if_pos h,
        @List.find?_cons_of_pos _ (fun t => t.id == i) (f a) _ hpf,
        @List.find?_cons_of_pos _ (fun t => t.id == i) a l h]
      rfl
    · unfold updateById at ih ⊢
      rw [List.map_cons, if_neg h,
        @List.find?_cons_of_neg _ (fun t => t.id == i) a _ h,
        @List.find?_cons_of_neg _ (fun t => t.id == i) a l h]
      exact ih

/-- In a collection with distinct ids, looking up the id of a member finds
exactly that member. -/
theorem find?_id_of_mem (l : List Task) (hnd : (l.map Task.id).Nodup)
    (T : Task) (hT : T ∈ l) :
    l.find? (fun t => t.id == T.id) = some T := by
  have hs : (l.find? (fun t => t.id == T.id)).isSome = true :=
    List.find?_isSome.mpr ⟨T, hT, by simp⟩
  obtain ⟨t₁, h₁⟩ := Option.isSome_iff_exists.mp hs
  have hmem := List.mem_of_find?_eq_some h₁
  have hid : t₁.id = T.id := by simpa using List.find?_some h₁
  rw [h₁, List.inj_on_of_nodup_map hnd hmem hT hid]

/-- The ownership lookup of a member task by its actual owner. -/
theorem findOwned_eq_some (store : TaskStore) (hnd : (store.tasks.map Task.id).Nodup)
    (T : Task) (hT : T ∈ store.tasks) (u : String) (hu : T.userId = u) :
    findOwned store T.id u = some T := by
  have hs : (store.tasks.find? (fun t => t.id == T.id && t.userId == u)).isSome = true :=
    List.find?_isSome.mpr ⟨T, hT, by simp [hu]⟩
  obtain ⟨t₁, h₁⟩ := Option.isSome_iff_exists.mp hs
  have hmem := List.mem_of_find?_eq_some h₁
  have hp := List.find?_some h₁
  simp only [Bool.and_eq_true, beq_iff_eq] at hp
  unfold findOwned
  rw [h₁, List.inj_on_of_nodup_map hnd hmem hT hp.1]

/-- The ownership lookup fails for a requester who is not the owner (ids
being distinct, the only task with this id belongs to someone else). -/
theorem findOwned_eq_none (store : TaskStore) (hnd : (store.tasks.map Task.id).Nodup)
    (T : Task) (hT : T ∈ store.tasks) (B : String) (hB : T.userId ≠ B) :
    findOwned store T.id B = none := by
  unfold findOwned
  apply List.find?_eq_none.mpr
  intro t ht hp
  simp only [Bool.and_eq_true, beq_iff_eq] at hp
  have : t = T := List.inj_on_of_nodup_map hnd ht hT hp.1
  exact hB (this ▸ hp.2)

/-- The ownership lookup fails for an id no stored task has. -/
theorem findOwned_fresh (store : TaskStore) (j : Nat)
    (hj : ∀ t ∈ store.tasks, t.id ≠ j) (u : String) :
    findOwned store j u = none := by
  unfold findOwned
  apply List.find?_eq_none.mpr
  intro t ht hp
  simp only [Bool.and_eq_true, beq_iff_eq] at hp
  exact hj t ht hp.1

/-- The per-id update map leaves the id column of the collection
untouched. -/
theorem map_update_id (l : List Task) (i : Nat) (f : Task → Task)
    (hf : ∀ t, (f t).id = t.id) :
    (updateById l i f).map Task.id = l.map Task.id := by
  unfold updateById
  rw [List.map_map]
  apply List.map_congr_left
  intro t _
  by_cases h : (t.id == i) = true <;> simp [Function.comp, h, hf]

/-- Closed form of `PUT /tasks/:id` when the title is valid and the target
task belongs to the caller. -/
theorem putTask_found (store : TaskStore) (hnd : (store.tasks.map Task.id).Nodup)
    (u : String) (T : Task) (hT : T ∈ store.tasks) (hu : T.userId = u)
    (title : Option String) (completed : Option Bool) (now : Nat)
    (hv : validateTitle (sanitizeOpt title) = true) :
    putTask store u T.id title completed now =
      (Resp.okTask (applyTaskUpdate T (sanitizeOpt title) completed now),
       { store with tasks := putUpdatedTasks store T.id title completed now }) := by
  have hfo := findOwned_eq_some store hnd T hT u hu
  have hfind : (putUpdatedTasks store T.id title completed now).find?
        (fun t => t.id == T.id) =
      some (applyTaskUpdate T (sanitizeOpt title) completed now) := by
    unfold putUpdatedTasks
    rw [find?_update_map store.tasks T.id
        (fun t => applyTaskUpdate t (sanitizeOpt title) completed now) (fun t => rfl),
      find?_id_of_mem store.tasks hnd T hT]
    rfl
  unfold putTask
  rw [hv, hfo, hfind]
  rfl

/-- Membership in the collection after `POST /tasks`: an old task, or the
newly created one (which is not completed and has no completion time). -/
theorem postTasks_mem (store : TaskStore) (u : String) (title : Option String)
    (t : Task) (ht : t ∈ (postTasks store u title).2.tasks) :
    t ∈ store.tasks ∨ (t.completed = false ∧ t.completedAt = none) := by
  unfold postTasks at ht
  cases hv : validateTitle (sanitizeOpt title) with
  | false => rw [hv] at ht; exact Or.inl ht
  | true =>
    rw [hv] at ht
    simp only [Bool.not_true, Bool.false_eq_true, if_false] at ht
    rcases List.mem_append.mp ht with h | h
    · exact Or.inl h
    · rw [List.mem_singleton.mp h]
      exact Or.inr ⟨rfl, rfl⟩

/-- Membership in the collection after `PUT /tasks/:id`: an old task, or an
old task rewritten by the update object. -/
theorem putTask_mem (store : TaskStore) (u : String) (id : Nat) (title : Option String)
    (completed : Option Bool) (now : Nat) (t : Task)
    (ht : t ∈ (putTask store u id title completed now).2.tasks) :
    t ∈ store.tasks ∨
      ∃ t0 ∈ store.tasks, t = applyTaskUpdate t0 (sanitizeOpt title) completed now := by
  unfold putTask at ht
  cases hv : validateTitle (sanitizeOpt title) with
  | false => rw [hv] at ht; exact Or.inl ht
  | true =>
    rw [hv] at ht
    simp only [Bool.not_true, Bool.false_eq_true, if_false] at ht
    cases hfo : findOwned store id u with
    | none => rw [hfo] at ht; exact Or.inl ht
    | some t0 =>
      rw [hfo] at ht
      have hmem : t ∈ putUpdatedTasks store id title completed now := by
        cases hf2 : (putUpdatedTasks store id title completed now).find?
            (fun x => x.id == id) with
        | none => rw [hf2] at ht; exact ht
        | some t' => rw [hf2] at ht; exact ht
      unfold putUpdatedTasks updateById at hmem
      rcases List.mem_map.mp hmem with ⟨t1, ht1, rfl⟩
      by_cases h : (t1.id == id) = true
      · rw [if_pos h]; exact Or.inr ⟨t1, ht1, rfl⟩
      · rw [if_neg h]; exact Or.inl ht1

/-- Membership in the collection after `DELETE /tasks/:id` implies prior
membership. -/
theorem deleteTask_mem (store : TaskStore) (u : String) (id : Nat) (t : Task)
    (ht : t ∈ (deleteTask store u id).2.tasks) : t ∈ store.tasks := by
  unfold deleteTask at ht
  cases hfo : findOwned store id u with
  | none => rw [hfo] at ht; exact ht
  | some t0 =>
    rw [hfo] at ht
    exact (List.mem_filter.mp ht).1

/-- Looking up the owner in an upserted collection yields the upserted
document. -/
theorem find?_upsertProfileList (ps : List Profile) (u : String) (p : Profile)
    (hp : p.userId = u) :
    (upsertProfileList ps u p).find? (fun q => q.userId == u) = some p := by
  have hpp : ((fun q : Profile => q.userId == u) p) = true := by simp [hp]
  induction ps with
  | nil =>
    simp only [upsertProfileList]
    exact @List.find?_cons_of_pos _ (fun q => q.userId == u) p [] hpp
  | cons q qs ih =>
    simp only [upsertProfileList]
    by_cases h : (q.userId == u) = true
    · rw [if_pos h]
      exact @List.find?_cons_of_pos _ (fun r => r.userId == u) p qs hpp
    · rw [if_neg h]
      rw [@List.find?_cons_of_neg _ (fun r => r.userId == u) q (upsertProfileList qs u p) h]
      exact ih

/-- Closed form of `GET /profile` when the caller has no profile yet. -/
theorem getProfile_not_found (ps : List Profile) (u : AuthUser) (now : Nat)
    (h : ps.find? (fun p => p.userId == u.sub) = none) :
    getProfile ps u now = (defaultProfileFor u now, ps ++ [defaultProfileFor u now]) := by
  unfold getProfile
  rw [h]

/-- Closed form of `GET /profile` when the caller has a profile. -/
theorem getProfile_found (ps : List Profile) (u : AuthUser) (now : Nat) (p : Profile)
    (h : ps.find? (fun q => q.userId == u.sub) = some p) :
    getProfile ps u now = (p, ps) := by
  unfold getProfile
  rw [h]

/-- The auth gate rejects a header that is absent or does not start with
`Bearer `. -/
theorem bearerUser_malformed (verify : String → Option AuthUser) (h : Option String)
    (hh : ∀ s, h = some s → startsWithChars "Bearer ".data s.data = false) :
    bearerUser verify h = none := by
  cases h with
  | none => rfl
  | some s => simp [bearerUser, hh s rfl]

/-- Order comparison on nullable completion timestamps, `null` first (the
MongoDB ascending order on the `completedAt` column). -/
def completedAtLE : Option Nat → Option Nat → Prop
  | none, _ => True
  | some _, none => False
  | some x, some y => x ≤ y

/-- The sort relation of `GET /tasks` entails the claimed picture: active
tasks never follow completed ones, and completion times ascend among
completed tasks. -/
theorem taskLE_imp (a b : Task) (h : taskLE a b) :
    (a.completed = true → b.completed = true) ∧
    (a.completed = true → b.completed = true →
      completedAtLE a.completedAt b.completedAt) := by
  constructor
  · intro hac
    cases hbc : b.completed with
    | true => rfl
    | false =>
      exfalso
      rcases h with h | ⟨h, _⟩ <;> simp [keyC, hac, hbc] at h
  · intro hac hbc
    rcases h with h | ⟨_, h⟩
    · simp [keyC, hac, hbc] at h
    · cases hat : a.completedAt with
      | none => exact trivial
      | some x =>
        cases hbt : b.completedAt with
        | none => simp [keyT, hat, hbt] at h
        | some y =>
          simp only [keyT, hat, hbt] at h
          simpa [completedAtLE] using Nat.le_of_succ_le_succ h

/-! Claim theorems. -/

/-- C1, counterexample: the claim states that every `PUT /tasks/:id` request
by a non-owner returns 404; but the handler validates the title before the
ownership check, so a non-owner sending an invalid (here empty) title for a
task owned by someone else receives 400, not 404. -/
theorem c1_counterexample :
    (putTask ⟨[⟨1, "m", false, none, "A"⟩], 2⟩ "B" 1 (some "") none 0).1 =
      Resp.badRequest ∧
    Resp.badRequest ≠ Resp.notFound := by decide

/-- C1, amended: for a task owned by `A` and a requester `B ≠ A`, a DELETE
returns 404 with the store unchanged; a PUT returns 400 when the sanitized
title fails validation and 404 otherwise, with the store unchanged; and in
every case the response equals the response for an id that no stored task
has, so a foreign task is indistinguishable from a nonexistent one. -/
theorem c1_ownership_hiding (store : TaskStore) (hwf : store.WF) (A B : String)
    (hAB : B ≠ A) (T : Task) (hT : T ∈ store.tasks) (hown : T.userId = A)
    (title : Option String) (completed : Option Bool) (now : Nat) :
    deleteTask store B T.id = (Resp.notFound, store) ∧
    putTask store B T.id title completed now =
      (if validateTitle (sanitizeOpt title) then (Resp.notFound, store)
       else (Resp.badRequest, store)) ∧
    ∀ j : Nat, (∀ t ∈ store.tasks, t.id ≠ j) →
      putTask store B j title completed now = putTask store B T.id title completed now ∧
      deleteTask store B j = deleteTask store B T.id := by
  have hTB : T.userId ≠ B := by
    rw [hown]
    exact fun h => hAB h.symm
  have hno : findOwned store T.id B = none := findOwned_eq_none store hwf.1 T hT B hTB
  refine ⟨?_, ?_, ?_⟩
  · unfold deleteTask
    rw [hno]
  · unfold putTask
    rw [hno]
    cases hv : validateTitle (sanitizeOpt title) with
    | true => simp [hv]
    | false => simp [hv]
  · intro j hj
    have hnoj : findOwned store j B = none := findOwned_fresh store j hj B
    constructor
    · unfold putTask
      rw [hno, hnoj]
    · unfold deleteTask
      rw [hno, hnoj]

/-- C1, witness: a concrete store with one task owned by `A`; a DELETE by
`B` answers 404 and leaves the store unchanged. -/
theorem c1_ownership_hiding_witness :
    deleteTask ⟨[⟨1, "m", false, none, "A"⟩], 2⟩ "B" 1 =
      (Resp.notFound, ⟨[⟨1, "m", false, none, "A"⟩], 2⟩) :=
  (c1_ownership_hiding ⟨[⟨1, "m", false, none, "A"⟩], 2⟩ (by decide) "A" "B"
    (by decide) ⟨1, "m", false, none, "A"⟩ (by decide) rfl none none 0).1

/-- C2, counterexample: the claim states that every title string of raw
length above 100 is rejected with 400 and creates nothing; but a 101
character title with a trailing space sanitizes (trims) to 100 characters,
passes validation, and a task is created. -/
theorem c2_counterexample :
    (String.mk (List.replicate 100 'a' ++ [' '])).length = 101 ∧
    (postTasks ⟨[], 0⟩ "u" (some (String.mk (List.replicate 100 'a' ++ [' '])))).1 ≠
      Resp.badRequest ∧
    (postTasks ⟨[], 0⟩ "u"
      (some (String.mk (List.replicate 100 'a' ++ [' '])))).2.tasks.length = 1 := by
  decide

/-- C2, amended: for every title string whose sanitized form (angle brackets
removed, trimmed) still has length above 100, `POST /tasks` returns 400 and
the task collection is unchanged. -/
theorem c2_oversize_sanitized_title_rejected (store : TaskStore) (u s : String)
    (h : 100 < (jsTrim (sanitizeInput s)).length) :
    postTasks store u (some s) = (Resp.badRequest, store) := by
  have hval : validateTitle (sanitizeOpt (some s)) = false := by
    unfold validateTitle sanitizeOpt
    rw [decide_eq_false (Nat.not_le.mpr h)]
    exact Bool.and_false _
  unfold postTasks
  rw [hval]
  rfl

/-- C2, witness: 101 letters with no brackets or spaces stay oversize after
sanitization, and the post is rejected without creating a task. -/
theorem c2_oversize_sanitized_title_rejected_witness :
    100 < (jsTrim (sanitizeInput (String.mk (List.replicate 101 'a')))).length ∧
    postTasks ⟨[], 0⟩ "u" (some (String.mk (List.replicate 101 'a'))) =
      (Resp.badRequest, ⟨[], 0⟩) :=
  ⟨by decide,
   c2_oversize_sanitized_title_rejected ⟨[], 0⟩ "u" (String.mk (List.replicate 101 'a'))
    (by decide)⟩

/-- C3: a valid `PUT /tasks/:id` on an owned task stores (and returns) a
task whose title is the sanitized payload title and whose `completedAt` is a
non-null timestamp exactly when the payload `completed` flag is `true` and
null otherwise; the resulting store is again well-formed and contains the
updated task, so the statement applies to the following toggle as well
(toggling `completed` to `true` and then to `false` returns `completedAt` to
null). -/
theorem c3_put_updates_title_and_completion (store : TaskStore) (hwf : store.WF)
    (u : String) (T : Task) (hT : T ∈ store.tasks) (hu : T.userId = u)
    (title : Option String) (completed : Option Bool) (now : Nat)
    (hv : validateTitle (sanitizeOpt title) = true) :
    ∃ T', (putTask store u T.id title completed now).1 = Resp.okTask T' ∧
      (putTask store u T.id title completed now).2.tasks.find?
        (fun t => t.id == T.id) = some T' ∧
      T'.title = sanitizeOpt title ∧
      (completed = some true → T'.completedAt = some now) ∧
      (completed ≠ some true → T'.completedAt = none) ∧
      T' ∈ (putTask store u T.id title completed now).2.tasks ∧
      (putTask store u T.id title completed now).2.WF := by
  have hfind : (putUpdatedTasks store T.id title completed now).find?
      (fun t => t.id == T.id) =
      some (applyTaskUpdate T (sanitizeOpt title) completed now) := by
    unfold putUpdatedTasks
    rw [find?_update_map store.tasks T.id
        (fun t => applyTaskUpdate t (sanitizeOpt title) completed now) (fun t => rfl),
      find?_id_of_mem store.tasks hwf.1 T hT]
    rfl
  have hput := putTask_found store hwf.1 u T hT hu title completed now hv
  rw [hput]
  refine ⟨applyTaskUpdate T (sanitizeOpt title) completed now, rfl, hfind, rfl, ?_, ?_,
    List.mem_of_find?_eq_some hfind, ?_, ?_⟩
  · intro hc
    subst hc
    rfl
  · intro hc
    cases completed with
    | none => rfl
    | some b =>
      cases b with
      | true => exact absurd rfl hc
      | false => rfl
  · show ((putUpdatedTasks store T.id title completed now).map Task.id).Nodup
    unfold putUpdatedTasks
    rw [map_update_id store.tasks T.id
        (fun t => applyTaskUpdate t (sanitizeOpt title) completed now) (fun t => rfl)]
    exact hwf.1
  · intro t' ht'
    unfold putUpdatedTasks updateById at ht'
    rcases List.mem_map.mp ht' with ⟨t1, ht1, rfl⟩
    by_cases h : (t1.id == T.id) = true
    · rw [if_pos h]
      exact hwf.2 t1 ht1
    · rw [if_neg h]
      exact hwf.2 t1 ht1

/-- C3, witness: completing the single owned task of a concrete store
through a valid PUT. -/
theorem c3_put_updates_title_and_completion_witness :
    ∃ T', (putTask ⟨[⟨1, "m", false, none, "u"⟩], 2⟩ "u" 1 (some "x") (some true) 7).1 =
        Resp.okTask T' ∧
      (putTask ⟨[⟨1, "m", false, none, "u"⟩], 2⟩ "u" 1 (some "x")
        (some true) 7).2.tasks.find? (fun t => t.id == 1) = some T' ∧
      T'.title = sanitizeOpt (some "x") ∧
      (some true = some true → T'.completedAt = some 7) ∧
      (some true ≠ some true → T'.completedAt = none) ∧
      T' ∈ (putTask ⟨[⟨1, "m", false, none, "u"⟩], 2⟩ "u" 1 (some "x")
        (some true) 7).2.tasks ∧
      (putTask ⟨[⟨1, "m", false, none, "u"⟩], 2⟩ "u" 1 (some "x") (some true) 7).2.WF :=
  c3_put_updates_title_and_completion ⟨[⟨1, "m", false, none, "u"⟩], 2⟩ (by decide)
    "u" ⟨1, "m", false, none, "u"⟩ (by decide) rfl (some "x") (some true) 7 (by decide)

/-- C4, counterexample: a state violating the claimed invariant is reachable
through the public task operations alone: create a task, complete it with a
PUT carrying `completed: true`, then send a title-only PUT (the `completed`
key of the update is `undefined` and is dropped, while `completedAt` is
explicitly set to null), leaving a task with `completed = true` and
`completedAt = null`. -/
theorem c4_counterexample :
    ∃ s : TaskStore, TaskReach s ∧ ∃ t ∈ s.tasks,
      t.completed = true ∧ t.completedAt = none :=
  ⟨_, TaskReach.put _ "u" 0 (some "milk") none 9
      (TaskReach.put _ "u" 0 (some "milk") (some true) 5
        (TaskReach.post _ "u" (some "milk") TaskReach.init)),
   by decide⟩

/-- C4, amended: the invariant `completed = true` iff `completedAt` non-null
holds in every state reachable when each update payload carries a boolean
`completed` flag; creation establishes it and every flag-carrying update
preserves it (a PUT whose payload omits the flag can break it). -/
theorem c4_completion_invariant_with_flag (s : TaskStore) (h : TaskReachB s) :
    ∀ t ∈ s.tasks, (t.completed = true ↔ t.completedAt ≠ none) := by
  induction h with
  | init => intro t ht; exact absurd ht (List.not_mem_nil t)
  | post s0 u title hs ih =>
    intro t ht
    rcases postTasks_mem s0 u title t ht with h1 | ⟨h1, h2⟩
    · exact ih t h1
    · rw [h1, h2]
      simp
  | put s0 u id title b now hs ih =>
    intro t ht
    rcases putTask_mem s0 u id title (some b) now t ht with h1 | ⟨t0, ht0, rfl⟩
    · exact ih t h1
    · cases b with
      | true => simp [applyTaskUpdate]
      | false => simp [applyTaskUpdate]
  | del s0 u id hs ih =>
    intro t ht
    exact ih t (deleteTask_mem s0 u id t ht)

/-- C4, witness: the invariant at the single task of a freshly created
store. -/
theorem c4_completion_invariant_with_flag_witness :
    ((⟨0, "milk", false, none, "u"⟩ : Task).completed = true ↔
      (⟨0, "milk", false, none, "u"⟩ : Task).completedAt ≠ none) :=
  c4_completion_invariant_with_flag (postTasks ⟨[], 0⟩ "u" (some "milk")).2
    (TaskReachB.post ⟨[], 0⟩ "u" (some "milk") TaskReachB.init)
    ⟨0, "milk", false, none, "u"⟩ (by decide)

/-- C5: `GET /tasks` returns exactly the caller's tasks (a permutation of
the owner-filtered collection), every non-completed task precedes every
completed one, and completion timestamps ascend among completed tasks
(`null` timestamps, possible only through the C4 anomaly, sort first as in
MongoDB). -/
theorem c5_list_tasks_sorted (store : TaskStore) (u : String) :
    (listByOwner store u).Perm (store.tasks.filter (fun t => t.userId == u)) ∧
    (listByOwner store u).Pairwise (fun a b =>
      (a.completed = true → b.completed = true) ∧
      (a.completed = true → b.completed = true →
        completedAtLE a.completedAt b.completedAt)) :=
  ⟨List.perm_insertionSort taskLE _,
   List.Pairwise.imp (fun {a b} h => taskLE_imp a b h)
    (List.sorted_insertionSort taskLE _)⟩

/-- C10, counterexample: the claim states that the client's save-edit
request (valid title, no `completed` field) stores the task with a non-true
completed flag; but the `undefined` value of `completed` is dropped from the
update, so a completed task keeps `completed = true` (only `completedAt` is
reset to null). -/
theorem c10_counterexample :
    ((putTask ⟨[⟨1, "m", true, some 5, "u"⟩], 2⟩ "u" 1 (some "new") none 9).2.tasks.map
      Task.completed) = [true] ∧
    ((putTask ⟨[⟨1, "m", true, some 5, "u"⟩], 2⟩ "u" 1 (some "new") none 9).2.tasks.map
      Task.completedAt) = [none] := by decide

/-- C10, amended: a `PUT /tasks/:id` with a valid title and no `completed`
field — the request the client's save-edit action sends — stores the task
with its `completed` flag unchanged, its `completedAt` reset to null, and
its title replaced by the sanitized payload title; so editing a completed
task's title clears the completion timestamp without resetting the flag. -/
theorem c10_edit_clears_timestamp_keeps_flag (store : TaskStore) (hwf : store.WF)
    (u : String) (T : Task) (hT : T ∈ store.tasks) (hu : T.userId = u)
    (title : Option String) (now : Nat)
    (hv : validateTitle (sanitizeOpt title) = true) :
    ∃ T', (putTask store u T.id title none now).2.tasks.find?
        (fun t => t.id == T.id) = some T' ∧
      T'.completed = T.completed ∧
      T'.completedAt = none ∧
      T'.title = sanitizeOpt title := by
  have hfind : (putUpdatedTasks store T.id title none now).find?
      (fun t => t.id == T.id) =
      some (applyTaskUpdate T (sanitizeOpt title) none now) := by
    unfold putUpdatedTasks
    rw [find?_update_map store.tasks T.id
        (fun t => applyTaskUpdate t (sanitizeOpt title) none now) (fun t => rfl),
      find?_id_of_mem store.tasks hwf.1 T hT]
    rfl
  have hput := putTask_found store hwf.1 u T hT hu title none now hv
  rw [hput]
  exact ⟨applyTaskUpdate T (sanitizeOpt title) none now, hfind, rfl, rfl, rfl⟩

/-- C10, witness: a concrete completed task edited through a title-only
PUT. -/
theorem c10_edit_clears_timestamp_keeps_flag_witness :
    ∃ T', (putTask ⟨[⟨1, "m", true, some 5, "u"⟩], 2⟩ "u" 1
        (some "new") none 9).2.tasks.find? (fun t => t.id == 1) = some T' ∧
      T'.completed = (⟨1, "m", true, some 5, "u"⟩ : Task).completed ∧
      T'.completedAt = none ∧
      T'.title = sanitizeOpt (some "new") :=
  c10_edit_clears_timestamp_keeps_flag ⟨[⟨1, "m", true, some 5, "u"⟩], 2⟩ (by decide)
    "u" ⟨1, "m", true, some 5, "u"⟩ (by decide) rfl (some "new") 9 (by decide)

/-- C6, counterexample: the claim states that sanitization precedes the
length check for every persisted text field, so stored content obeys the
limits; but `PUT /profile` validates the raw displayName and sanitizes
afterwards: the raw value consisting only of the two angle brackets passes
validation (trimmed length 2) and is stored as the empty string, below the
1-character lower limit. -/
theorem c6_counterexample :
    validateDisplayName "<>" = true ∧
    (putProfile [] "u" (some "<>") none none none 3).2 =
      [⟨"u", some "", none, none, ⟨"dark", true⟩, 3, 3⟩] ∧
    (sanitizeInput "<>").length = 0 := by decide

/-- C6, amended: task titles are sanitized before validation (`POST /tasks`
rejects exactly when the sanitized title fails validation), while profile
text fields are validated on the raw payload (`PUT /profile` with only a
displayName rejects exactly when the raw value fails validation) and the
value stored on acceptance is the sanitized one, which may therefore fall
outside the claimed limits. -/
theorem c6_sanitize_validate_order (store : TaskStore) (tu : String)
    (title : Option String) (ps : List Profile) (pu : String) (d : String) (now : Nat) :
    ((postTasks store tu title).1 = Resp.badRequest ↔
      validateTitle (sanitizeOpt title) = false) ∧
    ((putProfile ps pu (some d) none none none now).1 = Resp.badRequest ↔
      validateDisplayName d = false) ∧
    (validateDisplayName d = true →
      ∃ p, (putProfile ps pu (some d) none none none now).1 = Resp.okProfile p ∧
        p.displayName = some (sanitizeInput d)) := by
  refine ⟨?_, ?_, ?_⟩
  · cases hv : validateTitle (sanitizeOpt title) with
    | true => simp [postTasks, hv]
    | false => simp [postTasks, hv]
  · cases hd : validateDisplayName d with
    | false => simp [putProfile, presentInvalid, hd]
    | true =>
      cases hfo : ps.find? (fun p => p.userId == pu) with
      | some p0 => simp [putProfile, presentInvalid, hd, hfo]
      | none => simp [putProfile, presentInvalid, hd, hfo]
  · intro hd
    cases hfo : ps.find? (fun p => p.userId == pu) with
    | some p0 =>
      refine ⟨applyProfilePatch p0 (some d) none none none now, ?_, rfl⟩
      unfold putProfile
      rw [hfo]
      simp [presentInvalid, hd]
    | none =>
      refine ⟨applyProfilePatch ⟨pu, none, none, none, ⟨"dark", true⟩, now, now⟩
        (some d) none none none now, ?_, rfl⟩
      unfold putProfile
      rw [hfo]
      simp [presentInvalid, hd]

/-- C6, witness: the displayName-only profile update is rejected exactly
when the raw display name fails validation, at a concrete input. -/
theorem c6_sanitize_validate_order_witness :
    (putProfile [] "w" (some "<>") none none none 4).1 = Resp.badRequest ↔
      validateDisplayName "<>" = false :=
  (c6_sanitize_validate_order ⟨[], 0⟩ "w" none [] "w" "<>" 4).2.1

/-- C7: `PUT /profile` rejects with 400 and writes nothing when any present
field among displayName, bio, avatar fails its validator; otherwise it
upserts the patched profile and returns exactly the stored document. -/
theorem c7_profile_validation_gate (ps : List Profile) (u : String)
    (dn av bioF : Option String) (prefs : Option Prefs) (now : Nat) :
    ((presentInvalid dn validateDisplayName || presentInvalid bioF validateBio ||
        presentInvalid av validateAvatarUrl) = true →
      putProfile ps u dn av bioF prefs now = (Resp.badRequest, ps)) ∧
    ((presentInvalid dn validateDisplayName || presentInvalid bioF validateBio ||
        presentInvalid av validateAvatarUrl) = false →
      ∃ p, putProfile ps u dn av bioF prefs now =
          (Resp.okProfile p, upsertProfileList ps u p) ∧
        p.userId = u ∧
        (putProfile ps u dn av bioF prefs now).2.find?
          (fun q => q.userId == u) = some p) := by
  cases h1 : presentInvalid dn validateDisplayName with
  | true =>
    refine ⟨fun _ => ?_, fun hf => ?_⟩
    · unfold putProfile
      rw [h1]
      rfl
    · simp at hf
  | false =>
    cases h2 : presentInvalid bioF validateBio with
    | true =>
      refine ⟨fun _ => ?_, fun hf => ?_⟩
      · unfold putProfile
        rw [h1, h2]
        rfl
      · simp at hf
    | false =>
      cases h3 : presentInvalid av validateAvatarUrl with
      | true =>
        refine ⟨fun _ => ?_, fun hf => ?_⟩
        · unfold putProfile
          rw [h1, h2, h3]
          rfl
        · simp at hf
      | false =>
        refine ⟨fun ht => ?_, fun _ => ?_⟩
        · simp at ht
        · cases hfo : ps.find? (fun p => p.userId == u) with
          | some p0 =>
            have hpu : p0.userId = u := by simpa using List.find?_some hfo
            have heq : putProfile ps u dn av bioF prefs now =
                (Resp.okProfile (applyProfilePatch p0 dn av bioF prefs now),
                 upsertProfileList ps u (applyProfilePatch p0 dn av bioF prefs now)) := by
              unfold putProfile
              rw [h1, h2, h3, hfo]
              rfl
            refine ⟨applyProfilePatch p0 dn av bioF prefs now, heq, hpu, ?_⟩
            rw [heq]
            exact find?_upsertProfileList ps u _ hpu
          | none =>
            have heq : putProfile ps u dn av bioF prefs now =
                (Resp.okProfile (applyProfilePatch
                    ⟨u, none, none, none, ⟨"dark", true⟩, now, now⟩ dn av bioF prefs now),
                 upsertProfileList ps u (applyProfilePatch
                    ⟨u, none, none, none, ⟨"dark", true⟩, now, now⟩ dn av bioF prefs now)) := by
              unfold putProfile
              rw [h1, h2, h3, hfo]
              rfl
            refine ⟨applyProfilePatch ⟨u, none, none, none, ⟨"dark", true⟩, now, now⟩
              dn av bioF prefs now, heq, rfl, ?_⟩
            rw [heq]
            exact find?_upsertProfileList ps u _ rfl

/-- C7, witness: an empty displayName is present and invalid, so a concrete
update is rejected with the store untouched. -/
theorem c7_profile_validation_gate_witness :
    putProfile [] "u" (some "") none none none 3 = (Resp.badRequest, []) :=
  (c7_profile_validation_gate [] "u" (some "") none none none 3).1 (by decide)

/-- C8: `GET /profile` is idempotent with respect to creation: for a user
with no stored profile, the first call creates exactly one profile (with the
generated avatar and the identity-derived display name) and the second call
returns that same record without writing. -/
theorem c8_profile_get_idempotent (ps : List Profile) (u : AuthUser) (t1 t2 : Nat)
    (h : ps.find? (fun p => p.userId == u.sub) = none) :
    List.countP (fun p => p.userId == u.sub) (getProfile ps u t1).2 = 1 ∧
    (getProfile (getProfile ps u t1).2 u t2).2 = (getProfile ps u t1).2 ∧
    (getProfile (getProfile ps u t1).2 u t2).1 = (getProfile ps u t1).1 ∧
    (getProfile ps u t1).1.avatar = some (generateShapesAvatar u.sub) ∧
    (getProfile ps u t1).1.displayName = some (identityDisplayName u) := by
  have h1 := getProfile_not_found ps u t1 h
  have hfind2 : (ps ++ [defaultProfileFor u t1]).find? (fun p => p.userId == u.sub) =
      some (defaultProfileFor u t1) := by
    rw [List.find?_append, h, Option.none_or]
    exact @List.find?_cons_of_pos _ (fun p => p.userId == u.sub) (defaultProfileFor u t1)
      [] (by simp [defaultProfileFor])
  have h2 := getProfile_found (ps ++ [defaultProfileFor u t1]) u t2
    (defaultProfileFor u t1) hfind2
  rw [h1]
  refine ⟨?_, ?_, ?_, rfl, rfl⟩
  · show List.countP (fun p => p.userId == u.sub) (ps ++ [defaultProfileFor u t1]) = 1
    rw [List.countP_append, List.countP_eq_zero.mpr (List.find?_eq_none.mp h)]
    simp [List.countP_cons, defaultProfileFor]
  · show (getProfile (ps ++ [defaultProfileFor u t1]) u t2).2 = ps ++ [defaultProfileFor u t1]
    rw [h2]
  · show (getProfile (ps ++ [defaultProfileFor u t1]) u t2).1 = defaultProfileFor u t1
    rw [h2]

/-- C8, witness: two successive profile fetches of a fresh user on the empty
collection. -/
theorem c8_profile_get_idempotent_witness :
    List.countP (fun p => p.userId == "auth0|abc")
      (getProfile [] ⟨"auth0|abc", some "Ann", none⟩ 1).2 = 1 ∧
    (getProfile (getProfile [] ⟨"auth0|abc", some "Ann", none⟩ 1).2
        ⟨"auth0|abc", some "Ann", none⟩ 2).2 =
      (getProfile [] ⟨"auth0|abc", some "Ann", none⟩ 1).2 ∧
    (getProfile (getProfile [] ⟨"auth0|abc", some "Ann", none⟩ 1).2
        ⟨"auth0|abc", some "Ann", none⟩ 2).1 =
      (getProfile [] ⟨"auth0|abc", some "Ann", none⟩ 1).1 ∧
    (getProfile [] ⟨"auth0|abc", some "Ann", none⟩ 1).1.avatar =
      some (generateShapesAvatar "auth0|abc") ∧
    (getProfile [] ⟨"auth0|abc", some "Ann", none⟩ 1).1.displayName =
      some (identityDisplayName ⟨"auth0|abc", some "Ann", none⟩) :=
  c8_profile_get_idempotent [] ⟨"auth0|abc", some "Ann", none⟩ 1 2 rfl

/-- C9: a request to any route other than `GET /health` whose Authorization
header is absent or does not begin with `Bearer ` is answered 401 by the
middleware, the handler is never reached, and the persisted state is
unchanged — for every verification oracle. -/
theorem c9_missing_bearer_rejected (verify : String → Option AuthUser) (now : Nat)
    (req : Request) (st : ServerState) (hroute : req.route ≠ Route.health)
    (hauth : ∀ s, req.authorization = some s →
      startsWithChars "Bearer ".data s.data = false) :
    handle verify now req st = (Resp.unauthorized, st) := by
  have hb := bearerUser_malformed verify req.authorization hauth
  rcases req with ⟨route, auth, pid, ti, co, dn, av, bi, pr⟩
  cases route <;> first
    | exact absurd rfl hroute
    | simp [handle, hb]

/-- C9, witness: a task-list request with no Authorization header on the
empty server state. -/
theorem c9_missing_bearer_rejected_witness :
    handle (fun _ => none) 0
      ⟨Route.tasksGet, none, 0, none, none, none, none, none, none⟩ ⟨⟨[], 0⟩, []⟩ =
      (Resp.unauthorized, ⟨⟨[], 0⟩, []⟩) :=
  c9_missing_bearer_rejected (fun _ => none) 0
    ⟨Route.tasksGet, none, 0, none, none, none, none, none, none⟩ ⟨⟨[], 0⟩, []⟩
    (by decide) (fun s hs => nomatch hs)

end TaskManager
